import Mathlib

/-!
Shallow embedding of the solana-noreplay program (bucketed-bitmap replay
protection) and proofs of its specification claims.

Source modules embedded:
* `src/program/src/state.rs`  — `BitmapAccount` layout and bit operations
* `src/program/src/pda.rs`    — `BitmapPdaSeeds` and `derive_bitmap_pda`
* `src/program/src/processor.rs` — `create_pda`, `init_bitmap_pda`,
  `process_create_bitmap`, `process_mark_used`
* `src/program/src/lib.rs`    — `Instruction::parse` (wire codec)

Bytes are modelled as `Nat` (values `< 256` on real inputs); byte buffers as
`List Nat`; addresses as byte lists.  The Solana runtime collaborators
(`find_program_address`, `create_program_address`, rent minimum balance) are
abstracted as a context record `PdaCtx`.  Cross-program invocations are
recorded as an explicit trace (`List Cpi`), and the transactional semantics of
the runtime is modelled by `Except`: an error discards all state changes.
-/

set_option maxRecDepth 4000

namespace NoReplay

/-- `state.rs`: size of the bitmap in bytes (128 bytes = 1024 bits). -/
def BITMAP_BYTES : Nat := 128

/-- `state.rs`: bits per bitmap bucket (derived from `BITMAP_BYTES`). -/
def BITS_PER_BUCKET : Nat := BITMAP_BYTES * 8

/-- `state.rs`: total account size `[bump: u8][bitmap: 128 bytes]` = 129 bytes. -/
def BITMAP_ACCOUNT_SIZE : Nat := 1 + BITMAP_BYTES

/-- `lib.rs` / `pda.rs`: maximum namespace length (2 chunks * 32 bytes). -/
def MAX_NAMESPACE_LEN : Nat := 64

/-- `pda.rs`: size of each seed component for namespace chunking. -/
def SEED_CHUNK_SIZE : Nat := 32

/-- Little-endian reading of a 2-byte unsigned integer (`u16::from_le_bytes`). -/
def readU16le (l : List Nat) : Nat :=
  l.getD 0 0 + 256 * l.getD 1 0

/-- Little-endian reading of an 8-byte unsigned integer (`u64::from_le_bytes`). -/
def readU64le (l : List Nat) : Nat :=
  l.getD 0 0 + 256 * (l.getD 1 0 + 256 * (l.getD 2 0 + 256 * (l.getD 3 0 +
    256 * (l.getD 4 0 + 256 * (l.getD 5 0 + 256 * (l.getD 6 0 +
    256 * l.getD 7 0))))))

/-- Little-endian encoding of a `u64` into 8 bytes (`u64::to_le_bytes`). -/
def toLeBytes8 (n : Nat) : List Nat :=
  [n % 256, n / 256 % 256, n / 256 ^ 2 % 256, n / 256 ^ 3 % 256,
   n / 256 ^ 4 % 256, n / 256 ^ 5 % 256, n / 256 ^ 6 % 256, n / 256 ^ 7 % 256]

/-- The `ProgramError` variants this program can return (from `pinocchio`). -/
inductive ProgramError where
  | invalidInstructionData
  | missingRequiredSignature
  | notEnoughAccountKeys
  | invalidSeeds
  | accountDataTooSmall
  | accountAlreadyInitialized
  deriving DecidableEq, Repr

/-- `pda.rs`: error returned when PDA derivation fails. -/
inductive DerivePdaError where
  | namespaceTooLong
  deriving DecidableEq, Repr

/-- `state.rs`: zero-copy wrapper for bitmap account data.
Layout: `[bump: u8][bitmap: 128 bytes]`. -/
structure BitmapAccount where
  bump : Nat
  bitmap : List Nat
  deriving DecidableEq, Repr

/-- `state.rs` `BitmapAccount::from_slice`: wrap account data.
Returns `none` if the data is too small. -/
def BitmapAccount.from_slice (data : List Nat) : Option BitmapAccount :=
  if data.length < BITMAP_ACCOUNT_SIZE then none
  else some { bump := data.headD 0, bitmap := (data.drop 1).take BITMAP_BYTES }

/-- `state.rs` `BitmapAccount::is_used`: check whether a sequence number is
marked as used. -/
def BitmapAccount.is_used (a : BitmapAccount) (sequence : Nat) : Bool :=
  let bit_index := sequence % BITS_PER_BUCKET
  let byte_index := bit_index / 8
  let bit_offset := bit_index % 8
  (a.bitmap.getD byte_index 0) &&& (1 <<< bit_offset) != 0

/-- `state.rs` `BitmapAccount::mark_used`: mark a sequence number as used.
Returns the previous value together with the updated account (the Rust code
mutates the bitmap in place). -/
def BitmapAccount.mark_used (a : BitmapAccount) (sequence : Nat) :
    Bool × BitmapAccount :=
  let was_used := a.is_used sequence
  let bit_index := sequence % BITS_PER_BUCKET
  let byte_index := bit_index / 8
  let bit_offset := bit_index % 8
  (was_used,
   { a with bitmap :=
      a.bitmap.set byte_index ((a.bitmap.getD byte_index 0) ||| (1 <<< bit_offset)) })

/-- Write a `BitmapAccount` back into an account-data buffer: the Rust wrapper
is zero-copy, so byte 0 holds the bump and bytes 1..129 the bitmap. -/
def BitmapAccount.store (a : BitmapAccount) (data : List Nat) : List Nat :=
  a.bump :: (a.bitmap ++ data.drop BITMAP_ACCOUNT_SIZE)

/-- `lib.rs`: parsed instruction (discriminator 0 or 1). -/
inductive Instruction where
  | createBitmap (ns : List Nat) (sequence : Nat)
  | markUsed (ns : List Nat) (sequence : Nat)
  deriving DecidableEq, Repr

/-- `lib.rs` `Instruction::parse`: zero-copy instruction parsing.
Layout: `[discriminator: 1][namespace_len: u16 LE][namespace][sequence: u64 LE]`. -/
def Instruction.parse (data : List Nat) : Except ProgramError Instruction :=
  if data.length < 11 then .error .invalidInstructionData
  else
    let discriminator := data.headD 0
    let payload := data.drop 1
    let namespace_len := readU16le (payload.take 2)
    if namespace_len > MAX_NAMESPACE_LEN then .error .invalidInstructionData
    else if payload.length ≠ 2 + namespace_len + 8 then .error .invalidInstructionData
    else
      let ns := (payload.drop 2).take namespace_len
      let sequence := readU64le (payload.drop (2 + namespace_len))
      if discriminator = 0 then .ok (.createBitmap ns sequence)
      else if discriminator = 1 then .ok (.markUsed ns sequence)
      else .error .invalidInstructionData

/-- `pda.rs`: seed components for bitmap PDA derivation.
Seeds are always `[authority, ns_chunk_0, ns_chunk_1, bucket_index]`. -/
structure BitmapPdaSeeds where
  ns_chunk_0 : List Nat
  ns_chunk_1 : List Nat
  bucket_bytes : List Nat
  deriving DecidableEq, Repr

/-- `pda.rs` `BitmapPdaSeeds::new`: compute seed components from namespace and
sequence. -/
def BitmapPdaSeeds.new (ns : List Nat) (sequence : Nat) : BitmapPdaSeeds :=
  let mid := min ns.length SEED_CHUNK_SIZE
  { ns_chunk_0 := ns.take mid
    ns_chunk_1 := ns.drop mid
    bucket_bytes := toLeBytes8 (sequence / BITS_PER_BUCKET) }

/-- `pda.rs` `BitmapPdaSeeds::as_seeds`: the seeds array for PDA derivation
(without bump). -/
def BitmapPdaSeeds.as_seeds (s : BitmapPdaSeeds) (authority : List Nat) :
    List (List Nat) :=
  [authority, s.ns_chunk_0, s.ns_chunk_1, s.bucket_bytes]

/-- `pda.rs` `BitmapPdaSeeds::as_seeds_with_bump`: the seeds array with bump
appended, for verification or signing. -/
def BitmapPdaSeeds.as_seeds_with_bump (s : BitmapPdaSeeds)
    (authority bump : List Nat) : List (List Nat) :=
  [authority, s.ns_chunk_0, s.ns_chunk_1, s.bucket_bytes, bump]

/-- Runtime collaborator interface: deterministic address derivation (with
off-curve bump search), address reconstruction from a known bump, and the rent
minimum balance for `BITMAP_ACCOUNT_SIZE` bytes. -/
structure PdaCtx where
  find_program_address : List (List Nat) → List Nat → List Nat × Nat
  create_program_address : List (List Nat) → List Nat → Option (List Nat)
  min_balance : Nat

/-- `pda.rs` `BitmapPdaSeeds::find_pda`: derive the PDA address and bump. -/
def BitmapPdaSeeds.find_pda (s : BitmapPdaSeeds) (ctx : PdaCtx)
    (authority program_id : List Nat) : List Nat × Nat :=
  ctx.find_program_address (s.as_seeds authority) program_id

/-- `pda.rs` `derive_bitmap_pda`: derive the bitmap PDA for a given authority,
namespace, and sequence. -/
def derive_bitmap_pda (ctx : PdaCtx) (authority ns : List Nat) (sequence : Nat)
    (program_id : List Nat) : Except DerivePdaError (List Nat × Nat) :=
  if ns.length > MAX_NAMESPACE_LEN then .error .namespaceTooLong
  else .ok ((BitmapPdaSeeds.new ns sequence).find_pda ctx authority program_id)

/-- A view of a Solana account as seen by the program (`pinocchio`
`AccountView`): address, current owner, lamport balance, data, and whether the
transaction carries its signature. -/
structure AccountView where
  address : List Nat
  owner : List Nat
  lamports : Nat
  data : List Nat
  signer : Bool
  deriving DecidableEq, Repr

/-- One cross-program invocation issued to the system program, recorded with
its arguments. -/
inductive Cpi where
  | createAccount (payer target : List Nat) (lamports space : Nat) (owner : List Nat)
  | transfer (source target : List Nat) (lamports : Nat)
  | allocate (target : List Nat) (space : Nat)
  | assign (target : List Nat) (owner : List Nat)
  deriving DecidableEq, Repr

/-- `processor.rs` `create_pda`: create and assign a PDA with the given space.
Single CPI for new accounts, three CPIs for pre-funded accounts.  The model
returns the trace of CPIs issued; `min_balance` stands for the rent minimum
computed by `CreateAccount::with_minimum_balance`. -/
def create_pda (min_balance : Nat) (payer pda : AccountView) (owner : List Nat)
    (space : Nat) : List Cpi :=
  let current_lamports := pda.lamports
  let required_lamports := min_balance
  if current_lamports = 0 then
    [Cpi.createAccount payer.address pda.address required_lamports space owner]
  else
    (if current_lamports < required_lamports then
      [Cpi.transfer payer.address pda.address (required_lamports - current_lamports)]
    else []) ++
    [Cpi.allocate pda.address space, Cpi.assign pda.address owner]

/-- `processor.rs` `init_bitmap_pda`: initialize the bitmap PDA if it does not
exist yet, and verify that the PDA address is correct.  Returns the bump, the
post-state of the PDA account, and the CPI trace.  Account creation leaves the
account owned by the program with `BITMAP_ACCOUNT_SIZE` zeroed bytes, into
which the bump is then written (`*bitmap.bump = bump`). -/
def init_bitmap_pda (ctx : PdaCtx) (payer authority bitmap_pda : AccountView)
    (pda_seeds : BitmapPdaSeeds) (program_id : List Nat) :
    Except ProgramError (Nat × AccountView × List Cpi) :=
  if bitmap_pda.owner ≠ program_id then
    let fp := pda_seeds.find_pda ctx authority.address program_id
    let expected_pda := fp.1
    let bump := fp.2
    if bitmap_pda.address ≠ expected_pda then .error .invalidSeeds
    else
      let cpis := create_pda ctx.min_balance payer bitmap_pda program_id
        BITMAP_ACCOUNT_SIZE
      let created_data := List.replicate BITMAP_ACCOUNT_SIZE 0
      match BitmapAccount.from_slice created_data with
      | none => .error .accountDataTooSmall
      | some acct =>
        let pda1 : AccountView :=
          { bitmap_pda with
            owner := program_id
            lamports := max bitmap_pda.lamports ctx.min_balance
            data := BitmapAccount.store { acct with bump := bump } created_data }
        .ok (bump, pda1, cpis)
  else
    match BitmapAccount.from_slice bitmap_pda.data with
    | none => .error .accountDataTooSmall
    | some acct =>
      let bump := acct.bump
      let seeds := pda_seeds.as_seeds_with_bump authority.address [bump]
      match ctx.create_program_address seeds program_id with
      | none => .error .invalidSeeds
      | some expected_pda =>
        if bitmap_pda.address ≠ expected_pda then .error .invalidSeeds
        else .ok (bump, bitmap_pda, [])

/-- `processor.rs` `process_create_bitmap`: create a bitmap PDA
permissionlessly.  Accounts: `[payer (signer), authority, bitmap_pda,
system_program]`; the authority does NOT need to sign. -/
def process_create_bitmap (ctx : PdaCtx) (program_id : List Nat)
    (accounts : List AccountView) (ns : List Nat) (sequence : Nat) :
    Except ProgramError (AccountView × List Cpi) :=
  match accounts with
  | [payer, authority, bitmap_pda, _system_program] =>
    if payer.signer = false then .error .missingRequiredSignature
    else
      let pda_seeds := BitmapPdaSeeds.new ns sequence
      match init_bitmap_pda ctx payer authority bitmap_pda pda_seeds program_id with
      | .error e => .error e
      | .ok (_, pda1, cpis) => .ok (pda1, cpis)
  | _ => .error .notEnoughAccountKeys

/-- `processor.rs` `process_mark_used`: mark a sequence number as used for
replay protection.  Accounts: `[payer (signer), authority (signer),
bitmap_pda, system_program]`.  Fails with `AccountAlreadyInitialized` when the
bit was already set. -/
def process_mark_used (ctx : PdaCtx) (program_id : List Nat)
    (accounts : List AccountView) (ns : List Nat) (sequence : Nat) :
    Except ProgramError (AccountView × List Cpi) :=
  match accounts with
  | [payer, authority, bitmap_pda, _system_program] =>
    if payer.signer = false then .error .missingRequiredSignature
    else if authority.signer = false then .error .missingRequiredSignature
    else
      let pda_seeds := BitmapPdaSeeds.new ns sequence
      match init_bitmap_pda ctx payer authority bitmap_pda pda_seeds program_id with
      | .error e => .error e
      | .ok (_, pda1, cpis) =>
        match BitmapAccount.from_slice pda1.data with
        | none => .error .accountDataTooSmall
        | some acct =>
          let r := acct.mark_used sequence
          if r.1 then .error .accountAlreadyInitialized
          else .ok ({ pda1 with data := r.2.store pda1.data }, cpis)
  | _ => .error .notEnoughAccountKeys

/-- The bitmap-PDA account state after a `MarkUsed` invocation: the new state
on success, the original state on failure (the runtime discards all changes of
a failed transaction). -/
def run_mark_used (ctx : PdaCtx) (program_id : List Nat)
    (payer authority bitmap_pda sys : AccountView) (ns : List Nat)
    (sequence : Nat) : AccountView :=
  match process_mark_used ctx program_id [payer, authority, bitmap_pda, sys] ns
    sequence with
  | .ok (pda1, _) => pda1
  | .error _ => bitmap_pda

/-- The bitmap-PDA account state after a `CreateBitmap` invocation (new state
on success, original state on failure). -/
def run_create_bitmap (ctx : PdaCtx) (program_id : List Nat)
    (payer authority bitmap_pda sys : AccountView) (ns : List Nat)
    (sequence : Nat) : AccountView :=
  match process_create_bitmap ctx program_id [payer, authority, bitmap_pda, sys]
    ns sequence with
  | .ok (pda1, _) => pda1
  | .error _ => bitmap_pda

/-- Whether sequence `t` reads as used in a raw account-data buffer (used to
state invariants over account states). -/
def record_used (data : List Nat) (t : Nat) : Bool :=
  match BitmapAccount.from_slice data with
  | some a => a.is_used t
  | none => false

/-! ### Helper lemmas on the bit operations -/

/-- The Rust bit test `b & (1 << k) != 0` is `Nat.testBit`. -/
theorem and_shift_ne_zero (b k : Nat) : (b &&& (1 <<< k) != 0) = b.testBit k := by
  rw [Nat.shiftLeft_eq, one_mul, Nat.and_two_pow]
  cases h : b.testBit k <;> simp [Nat.pow_eq_zero]

/-- `is_used` in `testBit` form. -/
theorem is_used_eq_testBit (a : BitmapAccount) (s : Nat) :
    a.is_used s =
      (a.bitmap.getD (s % BITS_PER_BUCKET / 8) 0).testBit (s % BITS_PER_BUCKET % 8) := by
  simp only [BitmapAccount.is_used]
  exact and_shift_ne_zero _ _

theorem getD_set_self {l : List Nat} {i : Nat} (x : Nat) (h : i < l.length) :
    (l.set i x).getD i 0 = x := by
  simp [List.getD_eq_getElem?_getD, List.getElem?_set_self h]

theorem getD_set_ne {l : List Nat} {i j : Nat} (x : Nat) (h : i ≠ j) :
    (l.set i x).getD j 0 = l.getD j 0 := by
  simp [List.getD_eq_getElem?_getD, List.getElem?_set_ne h]

/-- `mark_used` returns the previous bit value. -/
theorem mark_used_fst (a : BitmapAccount) (s : Nat) :
    (a.mark_used s).1 = a.is_used s := rfl

/-- `mark_used` does not change the stored bump. -/
theorem mark_used_bump (a : BitmapAccount) (s : Nat) :
    (a.mark_used s).2.bump = a.bump := rfl

/-- `mark_used` preserves the bitmap length. -/
theorem mark_used_length (a : BitmapAccount) (s : Nat) :
    (a.mark_used s).2.bitmap.length = a.bitmap.length := by
  simp [BitmapAccount.mark_used]

/-- Full bit-level characterisation of `mark_used`: afterwards, a sequence `t`
reads as used iff it read as used before or it addresses the same bit as `s`. -/
theorem mark_used_is_used (a : BitmapAccount) (h : a.bitmap.length = BITMAP_BYTES)
    (s t : Nat) :
    (a.mark_used s).2.is_used t =
      (a.is_used t || decide (t % BITS_PER_BUCKET = s % BITS_PER_BUCKET)) := by
  have hlt : s % BITS_PER_BUCKET / 8 < a.bitmap.length := by
    rw [h]
    have hmod : s % BITS_PER_BUCKET < BITS_PER_BUCKET :=
      Nat.mod_lt _ (by decide)
    simp only [BITS_PER_BUCKET, BITMAP_BYTES] at hmod ⊢
    omega
  simp only [is_used_eq_testBit, BitmapAccount.mark_used]
  by_cases hbyte : t % BITS_PER_BUCKET / 8 = s % BITS_PER_BUCKET / 8
  · rw [hbyte, getD_set_self _ hlt, Nat.testBit_or, Nat.shiftLeft_eq, one_mul,
      Nat.testBit_two_pow]
    have hiff : (s % BITS_PER_BUCKET % 8 = t % BITS_PER_BUCKET % 8) ↔
        (t % BITS_PER_BUCKET = s % BITS_PER_BUCKET) := by omega
    rw [decide_eq_decide.mpr hiff]
  · rw [getD_set_ne _ (fun e => hbyte e.symm)]
    have hne : ¬ (t % BITS_PER_BUCKET = s % BITS_PER_BUCKET) := by omega
    simp [hne]

/-- Bits are never cleared by `mark_used`. -/
theorem mark_used_monotone (a : BitmapAccount) (h : a.bitmap.length = BITMAP_BYTES)
    (s t : Nat) (hset : a.is_used t = true) :
    (a.mark_used s).2.is_used t = true := by
  rw [mark_used_is_used a h s t, hset, Bool.true_or]

/-- Bits of other bit positions are untouched by `mark_used`. -/
theorem mark_used_frame (a : BitmapAccount) (h : a.bitmap.length = BITMAP_BYTES)
    (s t : Nat) (hne : t % BITS_PER_BUCKET ≠ s % BITS_PER_BUCKET) :
    (a.mark_used s).2.is_used t = a.is_used t := by
  rw [mark_used_is_used a h s t]
  simp [hne]

/-- After `mark_used s`, `s` reads as used. -/
theorem mark_used_sets (a : BitmapAccount) (h : a.bitmap.length = BITMAP_BYTES)
    (s : Nat) : (a.mark_used s).2.is_used s = true := by
  rw [mark_used_is_used a h s s]
  simp

/-- `from_slice` succeeds exactly on buffers of at least 129 bytes. -/
theorem from_slice_isNone (data : List Nat) :
    (BitmapAccount.from_slice data).isNone = true ↔
      data.length < BITMAP_ACCOUNT_SIZE := by
  simp only [BitmapAccount.from_slice]
  split <;> simp_all

/-- What `from_slice` returns on a large-enough buffer. -/
theorem from_slice_eq (data : List Nat) (h : BITMAP_ACCOUNT_SIZE ≤ data.length) :
    BitmapAccount.from_slice data =
      some { bump := data.headD 0, bitmap := (data.drop 1).take BITMAP_BYTES } := by
  simp only [BitmapAccount.from_slice]
  rw [if_neg (by omega)]

/-- The bitmap produced by `from_slice` has exactly `BITMAP_BYTES` bytes. -/
theorem from_slice_bitmap_length (data : List Nat) (a : BitmapAccount)
    (h : BitmapAccount.from_slice data = some a) :
    a.bitmap.length = BITMAP_BYTES := by
  simp only [BitmapAccount.from_slice] at h
  split at h
  · exact absurd h (by simp)
  · rename_i hlen
    cases h
    simp only [List.length_take, List.length_drop]
    simp only [BITMAP_ACCOUNT_SIZE] at hlen
    omega

/-- Round trip: storing an account read from a buffer, after a bitmap update
that preserves the length, yields a buffer that reads back as that account. -/
theorem from_slice_store (data : List Nat) (a b : BitmapAccount)
    (h : BitmapAccount.from_slice data = some a)
    (hlen : b.bitmap.length = BITMAP_BYTES) :
    BitmapAccount.from_slice (b.store data) = some b := by
  simp only [BitmapAccount.from_slice] at h
  split at h
  · exact absurd h (by simp)
  · rename_i hsz
    simp only [BitmapAccount.from_slice, BitmapAccount.store]
    rw [if_neg]
    · congr 1
      cases b
      simp only [List.headD_cons, List.drop_succ_cons, List.drop_zero]
      congr 1
      simp only at hlen
      rw [List.take_append_of_le_length (by omega), List.take_of_length_le (by omega)]
    · simp only [List.length_cons, List.length_append, List.length_drop]
      simp only [BITMAP_ACCOUNT_SIZE] at *
      omega

/-- Storing preserves the buffer length when the bitmap has the right size. -/
theorem store_length (data : List Nat) (b : BitmapAccount)
    (hlen : b.bitmap.length = BITMAP_BYTES) (hdata : BITMAP_ACCOUNT_SIZE ≤ data.length) :
    (b.store data).length = data.length := by
  simp only [BitmapAccount.store, List.length_cons, List.length_append,
    List.length_drop, hlen]
  simp only [BITMAP_ACCOUNT_SIZE] at *
  omega

/-- The two namespace chunks always concatenate back to the namespace. -/
theorem new_chunks_append (ns : List Nat) (s : Nat) :
    (BitmapPdaSeeds.new ns s).ns_chunk_0 ++ (BitmapPdaSeeds.new ns s).ns_chunk_1 = ns :=
  List.take_append_drop _ ns

/-- The bucket-index seed is the little-endian bucket index. -/
theorem new_bucket_bytes (ns : List Nat) (s : Nat) :
    (BitmapPdaSeeds.new ns s).bucket_bytes = toLeBytes8 (s / BITS_PER_BUCKET) := rfl

/-- The first chunk is `namespace[0..min(32,len)]`, i.e. `take 32`. -/
theorem new_chunk_0_eq (ns : List Nat) (s : Nat) :
    (BitmapPdaSeeds.new ns s).ns_chunk_0 = ns.take SEED_CHUNK_SIZE := by
  simp only [BitmapPdaSeeds.new]
  rcases Nat.le_total ns.length SEED_CHUNK_SIZE with h | h
  · rw [min_eq_left h, List.take_length, List.take_of_length_le h]
  · rw [min_eq_right h]

/-- The second chunk is `namespace[min(32,len)..]`, i.e. `drop 32`. -/
theorem new_chunk_1_eq (ns : List Nat) (s : Nat) :
    (BitmapPdaSeeds.new ns s).ns_chunk_1 = ns.drop SEED_CHUNK_SIZE := by
  simp only [BitmapPdaSeeds.new]
  rcases Nat.le_total ns.length SEED_CHUNK_SIZE with h | h
  · rw [min_eq_left h, List.drop_length, List.drop_eq_nil_of_le h]
  · rw [min_eq_right h]

/-- 8-byte little-endian encoding is injective below `2^64`. -/
theorem toLeBytes8_inj {m n : Nat} (hm : m < 2 ^ 64) (hn : n < 2 ^ 64)
    (h : toLeBytes8 m = toLeBytes8 n) : m = n := by
  simp only [toLeBytes8, List.cons.injEq, and_true] at h
  omega

/-! ### Claim theorems -/

/-- C3: Record Lifecycle Manager funding paths — with zero balance the
creation path issues exactly one combined create-and-fund-and-assign CPI;
with a non-zero balance below the rent minimum it issues exactly three CPIs
in order (transfer of the shortfall, allocate, assign); with a balance at or
above the minimum it issues exactly two CPIs (allocate, assign) and no
transfer. -/
theorem create_pda_funding_paths (mb : Nat) (payer pda : AccountView)
    (owner : List Nat) (space : Nat) :
    (pda.lamports = 0 →
      create_pda mb payer pda owner space =
        [Cpi.createAccount payer.address pda.address mb space owner])
    ∧ (0 < pda.lamports → pda.lamports < mb →
      create_pda mb payer pda owner space =
        [Cpi.transfer payer.address pda.address (mb - pda.lamports),
         Cpi.allocate pda.address space,
         Cpi.assign pda.address owner])
    ∧ (0 < pda.lamports → mb ≤ pda.lamports →
      create_pda mb payer pda owner space =
        [Cpi.allocate pda.address space,
         Cpi.assign pda.address owner]) := by
  refine ⟨fun h0 => ?_, fun hpos hlt => ?_, fun hpos hge => ?_⟩ <;>
    simp only [create_pda]
  · rw [if_pos h0]
  · rw [if_neg (by omega), if_pos hlt]
    rfl
  · rw [if_neg (by omega), if_neg (by omega)]
    rfl

theorem create_pda_funding_paths_witness :
    0 < (AccountView.mk [2] [9] 3 [] false).lamports ∧ (3 : Nat) < 10 ∧
    create_pda 10 (AccountView.mk [1] [9] 50 [] true)
        (AccountView.mk [2] [9] 3 [] false) [7] 129 =
      [Cpi.transfer [1] [2] 7, Cpi.allocate [2] 129, Cpi.assign [2] [7]] :=
  ⟨by decide, by decide,
   (create_pda_funding_paths 10 (AccountView.mk [1] [9] 50 [] true)
     (AccountView.mk [2] [9] 3 [] false) [7] 129).2.1 (by decide) (by decide)⟩

/-- C5 (amended): decoding fails if fewer than 11 bytes are present, fails if
the declared namespace length exceeds 64, fails if the total length is not
exactly `1 + 2 + namespace_length + 8`, and otherwise succeeds — yielding a
`CreateBitmap` (PreCreate) operation for opcode 0 and a `MarkUsed` (Consume)
operation for opcode 1, with the namespace taken from the input and the
sequence read as little-endian `u64`.  Contrary to the original claim, the
three failure causes are all reported as the same error value
(`InvalidInstructionData`), not as distinct values. -/
theorem parse_error_conditions (data : List Nat) :
    (data.length < 11 →
      Instruction.parse data = .error .invalidInstructionData)
    ∧ (11 ≤ data.length → MAX_NAMESPACE_LEN < readU16le ((data.drop 1).take 2) →
      Instruction.parse data = .error .invalidInstructionData)
    ∧ (11 ≤ data.length → readU16le ((data.drop 1).take 2) ≤ MAX_NAMESPACE_LEN →
      data.length ≠ 1 + 2 + readU16le ((data.drop 1).take 2) + 8 →
      Instruction.parse data = .error .invalidInstructionData)
    ∧ (readU16le ((data.drop 1).take 2) ≤ MAX_NAMESPACE_LEN →
      data.length = 1 + 2 + readU16le ((data.drop 1).take 2) + 8 →
      (data.headD 0 = 0 →
        Instruction.parse data =
          .ok (.createBitmap ((data.drop 3).take (readU16le ((data.drop 1).take 2)))
            (readU64le (data.drop (3 + readU16le ((data.drop 1).take 2))))))
      ∧ (data.headD 0 = 1 →
        Instruction.parse data =
          .ok (.markUsed ((data.drop 3).take (readU16le ((data.drop 1).take 2)))
            (readU64le (data.drop (3 + readU16le ((data.drop 1).take 2))))))) := by
  simp only [Instruction.parse]
  refine ⟨fun h => by rw [if_pos h], fun h hlen => ?_, fun h hlen hmis => ?_,
    fun hlen heq => ?_⟩
  · rw [if_neg (by omega), if_pos (by omega)]
  · rw [if_neg (by omega), if_neg (by omega), if_pos]
    simp only [List.length_drop]
    omega
  · have h11 : 11 ≤ data.length := by omega
    rw [if_neg (by omega), if_neg (by omega), if_neg
      (by simp only [List.length_drop]; omega)]
    have hdd : (data.drop 1).drop 2 = data.drop 3 := by
      rw [List.drop_drop]
    have hdd2 : ∀ k, (data.drop 1).drop (2 + k) = data.drop (3 + k) := by
      intro k
      rw [List.drop_drop]
      congr 1
      omega
    constructor
    · intro h0
      rw [if_pos h0, hdd, hdd2]
    · intro h1
      rw [if_neg (by omega), if_pos h1, hdd, hdd2]

theorem parse_error_conditions_witness :
    readU16le (([2, 0] : List Nat)) ≤ MAX_NAMESPACE_LEN ∧
    Instruction.parse [1, 2, 0, 77, 88, 42, 0, 0, 0, 0, 0, 0, 0] =
      .ok (.markUsed [77, 88] 42) := by
  refine ⟨by decide, ?_⟩
  have h := (parse_error_conditions [1, 2, 0, 77, 88, 42, 0, 0, 0, 0, 0, 0, 0]).2.2.2
    (by decide) (by decide)
  have h2 := h.2 (by decide)
  simpa using h2

/-- C5, counterexample to "these three failure causes are reported as distinct
error values": a truncated buffer, a buffer whose declared namespace length is
65, and a buffer with a total-length mismatch all fail with the very same
error value `InvalidInstructionData`. -/
theorem parse_errors_not_distinct :
    Instruction.parse [0, 0, 0, 0, 0, 0, 0, 0, 0, 0] =
      .error .invalidInstructionData
    ∧ Instruction.parse [0, 65, 0, 0, 0, 0, 0, 0, 0, 0, 0] =
      .error .invalidInstructionData
    ∧ Instruction.parse [0, 0, 0, 0, 0, 0, 0, 0, 0, 0, 0, 0] =
      .error .invalidInstructionData := ⟨rfl, rfl, rfl⟩

/-- C10: for every input buffer whose first byte is neither 0 nor 1, decoding
fails (with `InvalidInstructionData`), no matter how well-formed the rest of
the buffer is; no operation is dispatched for an unknown opcode. -/
theorem parse_unknown_opcode (data : List Nat) (h0 : data.headD 0 ≠ 0)
    (h1 : data.headD 0 ≠ 1) :
    Instruction.parse data = .error .invalidInstructionData := by
  simp only [Instruction.parse, if_neg h0, if_neg h1]
  repeat' split
  all_goals rfl

theorem parse_unknown_opcode_witness :
    ([2, 0, 0, 0, 0, 0, 0, 0, 0, 0, 0] : List Nat).headD 0 ≠ 0 ∧
    Instruction.parse [2, 0, 0, 0, 0, 0, 0, 0, 0, 0, 0] =
      .error .invalidInstructionData :=
  ⟨by decide, parse_unknown_opcode [2, 0, 0, 0, 0, 0, 0, 0, 0, 0, 0]
    (by decide) (by decide)⟩

/-- C6: `derive_bitmap_pda` fails with `NamespaceTooLong` exactly when the
namespace exceeds 64 bytes, and otherwise delegates to the runtime derivation
primitive with the ordered seeds `[identity, namespace.take 32,
namespace.drop 32, toLeBytes8 (sequence / BITS_PER_BUCKET)]`. -/
theorem derive_bitmap_pda_spec (ctx : PdaCtx) (authority ns : List Nat)
    (s : Nat) (pid : List Nat) :
    ((derive_bitmap_pda ctx authority ns s pid = .error .namespaceTooLong) ↔
      MAX_NAMESPACE_LEN < ns.length)
    ∧ (ns.length ≤ MAX_NAMESPACE_LEN →
      derive_bitmap_pda ctx authority ns s pid =
        .ok (ctx.find_program_address
          [authority, ns.take SEED_CHUNK_SIZE, ns.drop SEED_CHUNK_SIZE,
           toLeBytes8 (s / BITS_PER_BUCKET)] pid)) := by
  constructor
  · simp only [derive_bitmap_pda]
    split
    · rename_i hgt
      simp only [gt_iff_lt] at hgt
      simp [hgt]
    · rename_i hle
      simp only [gt_iff_lt, not_lt] at hle
      constructor
      · intro h
        exact absurd h (by simp)
      · omega
  · intro hle
    simp only [derive_bitmap_pda]
    rw [if_neg (by omega)]
    congr 1
    simp only [BitmapPdaSeeds.find_pda, BitmapPdaSeeds.as_seeds,
      new_chunk_0_eq, new_chunk_1_eq, new_bucket_bytes]

theorem derive_bitmap_pda_spec_witness :
    ([5, 6] : List Nat).length ≤ MAX_NAMESPACE_LEN ∧
    derive_bitmap_pda ⟨fun seeds pid => (seeds.flatten ++ pid, 255),
        fun _ _ => none, 0⟩ [9] [5, 6] 2048 [3] =
      .ok ([9, 5, 6, 2, 0, 0, 0, 0, 0, 0, 0, 3], 255) := by
  refine ⟨by decide, ?_⟩
  have h := (derive_bitmap_pda_spec ⟨fun seeds pid => (seeds.flatten ++ pid, 255),
    fun _ _ => none, 0⟩ [9] [5, 6] 2048 [3]).2 (by decide)
  rw [h]
  rfl

/-- C9: independence of distinct sequences — within one bucket record,
`mark_used s1` leaves `is_used s2` unchanged for every `s2` addressing a
different bit; and the PDA seed tuples for distinct identities, distinct
namespaces, or distinct bucket indices are distinct, so such sequences live
in disjoint records. -/
theorem independence_of_sequences :
    (∀ (a : BitmapAccount) (s1 s2 : Nat), a.bitmap.length = BITMAP_BYTES →
      s2 % BITS_PER_BUCKET ≠ s1 % BITS_PER_BUCKET →
      ((a.mark_used s1).2.is_used s2 = a.is_used s2))
    ∧ (∀ (a1 a2 ns : List Nat) (s : Nat), a1 ≠ a2 →
      (BitmapPdaSeeds.new ns s).as_seeds a1 ≠ (BitmapPdaSeeds.new ns s).as_seeds a2)
    ∧ (∀ (a ns1 ns2 : List Nat) (s1 s2 : Nat), ns1 ≠ ns2 →
      (BitmapPdaSeeds.new ns1 s1).as_seeds a ≠ (BitmapPdaSeeds.new ns2 s2).as_seeds a)
    ∧ (∀ (a ns : List Nat) (s1 s2 : Nat), s1 < 2 ^ 64 → s2 < 2 ^ 64 →
      s1 / BITS_PER_BUCKET ≠ s2 / BITS_PER_BUCKET →
      (BitmapPdaSeeds.new ns s1).as_seeds a ≠ (BitmapPdaSeeds.new ns s2).as_seeds a) := by
  refine ⟨fun a s1 s2 hlen hne => mark_used_frame a hlen s1 s2 hne,
    fun a1 a2 ns s hne h => ?_, fun a ns1 ns2 s1 s2 hne h => ?_,
    fun a ns s1 s2 h1 h2 hne h => ?_⟩
  · simp only [BitmapPdaSeeds.as_seeds, List.cons.injEq] at h
    exact hne h.1
  · simp only [BitmapPdaSeeds.as_seeds, List.cons.injEq] at h
    apply hne
    calc ns1 = (BitmapPdaSeeds.new ns1 s1).ns_chunk_0 ++
        (BitmapPdaSeeds.new ns1 s1).ns_chunk_1 := (new_chunks_append ns1 s1).symm
      _ = (BitmapPdaSeeds.new ns2 s2).ns_chunk_0 ++
        (BitmapPdaSeeds.new ns2 s2).ns_chunk_1 := by rw [h.2.1, h.2.2.1]
      _ = ns2 := new_chunks_append ns2 s2
  · simp only [BitmapPdaSeeds.as_seeds, List.cons.injEq] at h
    apply hne
    have hq1 : s1 / BITS_PER_BUCKET < 2 ^ 64 :=
      lt_of_le_of_lt (Nat.div_le_self _ _) h1
    have hq2 : s2 / BITS_PER_BUCKET < 2 ^ 64 :=
      lt_of_le_of_lt (Nat.div_le_self _ _) h2
    exact toLeBytes8_inj hq1 hq2 h.2.2.2.1

theorem independence_of_sequences_witness :
    (⟨0, List.replicate 128 0⟩ : BitmapAccount).bitmap.length = BITMAP_BYTES ∧
    ((⟨0, List.replicate 128 0⟩ : BitmapAccount).mark_used 5).2.is_used 6 =
      (⟨0, List.replicate 128 0⟩ : BitmapAccount).is_used 6 :=
  ⟨by decide, independence_of_sequences.1 ⟨0, List.replicate 128 0⟩ 5 6
    (by decide) (by decide)⟩

/-- C7: `is_used` tests the bit at index `sequence mod BITS_PER_BUCKET` (byte
`bit_index / 8`, offset `bit_index mod 8`); `mark_used` returns the previous
value of that bit and sets exactly that bit, never clearing any other; and
`from_slice` returns no record exactly when the buffer is shorter than
`1 + BITMAP_BYTES`. -/
theorem record_bit_operations :
    (∀ (a : BitmapAccount) (s : Nat),
      a.is_used s =
        (a.bitmap.getD (s % BITS_PER_BUCKET / 8) 0).testBit (s % BITS_PER_BUCKET % 8))
    ∧ (∀ (a : BitmapAccount) (s : Nat), (a.mark_used s).1 = a.is_used s)
    ∧ (∀ (a : BitmapAccount) (s t : Nat), a.bitmap.length = BITMAP_BYTES →
      (a.mark_used s).2.is_used t =
        (a.is_used t || decide (t % BITS_PER_BUCKET = s % BITS_PER_BUCKET)))
    ∧ (∀ data : List Nat,
      BitmapAccount.from_slice data = none ↔ data.length < 1 + BITMAP_BYTES) := by
  refine ⟨is_used_eq_testBit, mark_used_fst, fun a s t h => mark_used_is_used a h s t,
    fun data => ?_⟩
  rw [← Option.isNone_iff_eq_none, from_slice_isNone]
  exact Iff.rfl

theorem record_bit_operations_witness :
    (⟨3, List.replicate 128 0⟩ : BitmapAccount).bitmap.length = BITMAP_BYTES ∧
    ((⟨3, List.replicate 128 0⟩ : BitmapAccount).mark_used 9).2.is_used 9 =
      ((⟨3, List.replicate 128 0⟩ : BitmapAccount).is_used 9 ||
        decide (9 % BITS_PER_BUCKET = 9 % BITS_PER_BUCKET)) :=
  ⟨by decide, record_bit_operations.2.2.1 ⟨3, List.replicate 128 0⟩ 9 9 (by decide)⟩

/-! ### Processor-level helper lemmas -/

/-- In the Owned state (account already owned by the program), `init_bitmap_pda`
reads the stored bump, verifies the reconstructed address, and makes no CPIs. -/
theorem init_bitmap_pda_owned (ctx : PdaCtx) (payer authority pda : AccountView)
    (seeds : BitmapPdaSeeds) (pid : List Nat) (ho : pda.owner = pid)
    (acct : BitmapAccount) (hfs : BitmapAccount.from_slice pda.data = some acct)
    (hre : ctx.create_program_address
      (seeds.as_seeds_with_bump authority.address [acct.bump]) pid =
      some pda.address) :
    init_bitmap_pda ctx payer authority pda seeds pid = .ok (acct.bump, pda, []) := by
  simp only [init_bitmap_pda]
  rw [if_neg (by simp [ho])]
  simp only [hfs, hre]
  simp

/-- Total characterisation of `init_bitmap_pda` in the Owned state. -/
theorem init_bitmap_pda_owned_total (ctx : PdaCtx)
    (payer authority pda : AccountView) (seeds : BitmapPdaSeeds) (pid : List Nat)
    (ho : pda.owner = pid) :
    init_bitmap_pda ctx payer authority pda seeds pid =
      match BitmapAccount.from_slice pda.data with
      | none => .error .accountDataTooSmall
      | some acct =>
        match ctx.create_program_address
            (seeds.as_seeds_with_bump authority.address [acct.bump]) pid with
        | none => .error .invalidSeeds
        | some expected_pda =>
          if pda.address ≠ expected_pda then .error .invalidSeeds
          else .ok (acct.bump, pda, []) := by
  simp only [init_bitmap_pda]
  rw [if_neg (by simp [ho])]

/-- `init_bitmap_pda` never reports a missing signature. -/
theorem init_bitmap_pda_ne_missing (ctx : PdaCtx)
    (payer authority pda : AccountView) (seeds : BitmapPdaSeeds) (pid : List Nat) :
    init_bitmap_pda ctx payer authority pda seeds pid ≠
      .error .missingRequiredSignature := by
  simp only [init_bitmap_pda]
  repeat' split
  all_goals simp

/-- `init_bitmap_pda` depends on the authority account only through its
address. -/
theorem init_bitmap_pda_authority_address (ctx : PdaCtx)
    (payer a1 a2 pda : AccountView) (seeds : BitmapPdaSeeds) (pid : List Nat)
    (h : a1.address = a2.address) :
    init_bitmap_pda ctx payer a1 pda seeds pid =
      init_bitmap_pda ctx payer a2 pda seeds pid := by
  simp only [init_bitmap_pda, h]

/-- Characterisation of `process_mark_used` when the PDA is already owned by
the program and passes address verification: it is an atomic check-and-set on
the stored bitmap, with no CPIs. -/
theorem process_mark_used_owned (ctx : PdaCtx) (pid : List Nat)
    (payer authority pda sys : AccountView) (ns : List Nat) (s : Nat)
    (hp : payer.signer = true) (ha : authority.signer = true)
    (ho : pda.owner = pid) (acct : BitmapAccount)
    (hfs : BitmapAccount.from_slice pda.data = some acct)
    (hre : ctx.create_program_address
      ((BitmapPdaSeeds.new ns s).as_seeds_with_bump authority.address [acct.bump])
      pid = some pda.address) :
    process_mark_used ctx pid [payer, authority, pda, sys] ns s =
      if acct.is_used s then .error .accountAlreadyInitialized
      else .ok ({ pda with data := (acct.mark_used s).2.store pda.data }, []) := by
  simp only [process_mark_used]
  rw [if_neg (by simp [hp]), if_neg (by simp [ha]),
    init_bitmap_pda_owned ctx payer authority pda _ pid ho acct hfs hre]
  simp only [hfs]
  rw [mark_used_fst]

/-- `process_mark_used` cannot fail with a missing signature once both the
payer and the authority are signers. -/
theorem process_mark_used_ne_missing (ctx : PdaCtx) (pid : List Nat)
    (payer authority pda sys : AccountView) (ns : List Nat) (s : Nat)
    (hp : payer.signer = true) (ha : authority.signer = true) :
    process_mark_used ctx pid [payer, authority, pda, sys] ns s ≠
      .error .missingRequiredSignature := by
  simp only [process_mark_used]
  rw [if_neg (by simp [hp]), if_neg (by simp [ha])]
  cases hinit : init_bitmap_pda ctx payer authority pda (BitmapPdaSeeds.new ns s) pid with
  | error e =>
    intro h
    simp only [Except.error.injEq] at h
    exact init_bitmap_pda_ne_missing ctx payer authority pda
      (BitmapPdaSeeds.new ns s) pid (h ▸ hinit)
  | ok v =>
    obtain ⟨b, pda1, cpis⟩ := v
    cases hfs : BitmapAccount.from_slice pda1.data with
    | none => simp [hfs]
    | some acct =>
      simp only [hfs]
      split <;> simp

/-- `process_create_bitmap` cannot fail with a missing signature once the
payer is a signer. -/
theorem process_create_bitmap_ne_missing (ctx : PdaCtx) (pid : List Nat)
    (payer authority pda sys : AccountView) (ns : List Nat) (s : Nat)
    (hp : payer.signer = true) :
    process_create_bitmap ctx pid [payer, authority, pda, sys] ns s ≠
      .error .missingRequiredSignature := by
  simp only [process_create_bitmap]
  rw [if_neg (by simp [hp])]
  cases hinit : init_bitmap_pda ctx payer authority pda (BitmapPdaSeeds.new ns s) pid with
  | error e =>
    intro h
    simp only [Except.error.injEq] at h
    exact init_bitmap_pda_ne_missing ctx payer authority pda
      (BitmapPdaSeeds.new ns s) pid (h ▸ hinit)
  | ok v =>
    obtain ⟨b, pda1, cpis⟩ := v
    simp

/-- C2: `CreateBitmap` fails with `MissingRequiredSignature` exactly when the
payer is not a signer — the authority's signer flag is irrelevant to it — and
`MarkUsed` fails with `MissingRequiredSignature` exactly when the payer or the
authority is not a signer. -/
theorem authorization_requirements (ctx : PdaCtx) (pid : List Nat)
    (payer authority pda sys : AccountView) (ns : List Nat) (s : Nat) :
    ((process_create_bitmap ctx pid [payer, authority, pda, sys] ns s =
        .error .missingRequiredSignature) ↔ payer.signer = false)
    ∧ (∀ b1 b2 : Bool,
      process_create_bitmap ctx pid
          [payer, { authority with signer := b1 }, pda, sys] ns s =
        process_create_bitmap ctx pid
          [payer, { authority with signer := b2 }, pda, sys] ns s)
    ∧ ((process_mark_used ctx pid [payer, authority, pda, sys] ns s =
        .error .missingRequiredSignature) ↔
        (payer.signer = false ∨ authority.signer = false)) := by
  refine ⟨?_, ?_, ?_⟩
  · by_cases hp : payer.signer = false
    · constructor
      · intro _
        exact hp
      · intro _
        simp only [process_create_bitmap]
        rw [if_pos hp]
    · constructor
      · intro h
        exact absurd h (process_create_bitmap_ne_missing ctx pid payer authority
          pda sys ns s (by simpa using hp))
      · intro h
        exact absurd h hp
  · intro b1 b2
    simp only [process_create_bitmap]
    rw [init_bitmap_pda_authority_address ctx payer { authority with signer := b1 }
      { authority with signer := b2 } pda (BitmapPdaSeeds.new ns s) pid rfl]
  · constructor
    · intro h
      by_cases hp : payer.signer = false
      · exact Or.inl hp
      · by_cases ha : authority.signer = false
        · exact Or.inr ha
        · exact absurd h (process_mark_used_ne_missing ctx pid payer authority pda
            sys ns s (by simpa using hp) (by simpa using ha))
    · intro h
      rcases h with hp | ha
      · simp only [process_mark_used]
        rw [if_pos hp]
      · simp only [process_mark_used]
        by_cases hp : payer.signer = false
        · rw [if_pos hp]
        · rw [if_neg hp, if_pos ha]

/-- C4: address verification and bump handling in `init_bitmap_pda` — in the
Unowned state the derived address must match the supplied account or the call
fails with `InvalidSeeds`, and every successful creation writes the bump into
the record's first byte; in the Owned state the stored bump is read, the
address recomputed via `create_program_address`, a mismatch fails with
`InvalidSeeds`, and no CPIs are made on success. -/
theorem init_bitmap_pda_address_verification (ctx : PdaCtx)
    (payer authority pda : AccountView) (seeds : BitmapPdaSeeds) (pid : List Nat) :
    (pda.owner ≠ pid →
      pda.address ≠ (seeds.find_pda ctx authority.address pid).1 →
      init_bitmap_pda ctx payer authority pda seeds pid = .error .invalidSeeds)
    ∧ (pda.owner ≠ pid →
      pda.address = (seeds.find_pda ctx authority.address pid).1 →
      ∃ pda1,
        init_bitmap_pda ctx payer authority pda seeds pid =
          .ok ((seeds.find_pda ctx authority.address pid).2, pda1,
            create_pda ctx.min_balance payer pda pid BITMAP_ACCOUNT_SIZE) ∧
        pda1.data.headD 0 = (seeds.find_pda ctx authority.address pid).2)
    ∧ (pda.owner = pid →
      ∀ acct, BitmapAccount.from_slice pda.data = some acct →
        (∀ addr, ctx.create_program_address
            (seeds.as_seeds_with_bump authority.address [acct.bump]) pid =
            some addr →
          pda.address ≠ addr →
          init_bitmap_pda ctx payer authority pda seeds pid = .error .invalidSeeds)
        ∧ (∀ b pda1 cpis,
          init_bitmap_pda ctx payer authority pda seeds pid = .ok (b, pda1, cpis) →
          cpis = [] ∧ pda1 = pda ∧ b = acct.bump)) := by
  refine ⟨fun hno hmis => ?_, fun hno haddr => ?_, fun ho acct hfs => ⟨?_, ?_⟩⟩
  · simp only [init_bitmap_pda]
    rw [if_pos hno, if_pos hmis]
  · simp only [init_bitmap_pda]
    rw [if_pos hno, if_neg (by simpa using haddr)]
    rw [from_slice_eq (List.replicate BITMAP_ACCOUNT_SIZE 0) (by simp)]
    exact ⟨_, rfl, rfl⟩
  · intro addr hcpa hne
    simp only [init_bitmap_pda]
    rw [if_neg (by simp [ho])]
    simp only [hfs, hcpa]
    rw [if_pos hne]
  · intro b pda1 cpis hok
    rw [init_bitmap_pda_owned_total ctx payer authority pda seeds pid ho] at hok
    simp only [hfs] at hok
    split at hok
    · exact absurd hok (by simp)
    · split at hok
      · exact absurd hok (by simp)
      · simp only [Except.ok.injEq, Prod.mk.injEq] at hok
        exact ⟨hok.2.2.symm, hok.2.1.symm, hok.1.symm⟩

theorem init_bitmap_pda_address_verification_witness :
    (AccountView.mk [3] [0] 0 [] false).owner ≠ [7] ∧
    init_bitmap_pda ⟨fun _ _ => ([9], 254), fun _ _ => none, 5⟩
        (AccountView.mk [1] [0] 50 [] true) (AccountView.mk [2] [0] 0 [] true)
        (AccountView.mk [3] [0] 0 [] false) (BitmapPdaSeeds.new [] 0) [7] =
      .error .invalidSeeds :=
  ⟨by decide,
   (init_bitmap_pda_address_verification ⟨fun _ _ => ([9], 254), fun _ _ => none, 5⟩
     (AccountView.mk [1] [0] 50 [] true) (AccountView.mk [2] [0] 0 [] true)
     (AccountView.mk [3] [0] 0 [] false) (BitmapPdaSeeds.new [] 0) [7]).1
     (by decide) (by decide)⟩

/-- C1: replay protection — on a verified, program-owned record, the first
`MarkUsed` for a sequence whose bit is unset succeeds (and needs no CPIs),
and every subsequent `MarkUsed` with the identical triple on the resulting
state fails with `AccountAlreadyInitialized`; if the bit is already set, the
call fails with `AccountAlreadyInitialized`. -/
theorem replay_protection (ctx : PdaCtx) (pid : List Nat)
    (payer authority pda sys : AccountView) (ns : List Nat) (s : Nat)
    (hp : payer.signer = true) (ha : authority.signer = true)
    (ho : pda.owner = pid) (acct : BitmapAccount)
    (hfs : BitmapAccount.from_slice pda.data = some acct)
    (hre : ctx.create_program_address
      ((BitmapPdaSeeds.new ns s).as_seeds_with_bump authority.address [acct.bump])
      pid = some pda.address) :
    (acct.is_used s = true →
      process_mark_used ctx pid [payer, authority, pda, sys] ns s =
        .error .accountAlreadyInitialized)
    ∧ (acct.is_used s = false →
      ∃ pda1,
        process_mark_used ctx pid [payer, authority, pda, sys] ns s =
          .ok (pda1, []) ∧
        process_mark_used ctx pid [payer, authority, pda1, sys] ns s =
          .error .accountAlreadyInitialized) := by
  have hmain := process_mark_used_owned ctx pid payer authority pda sys ns s hp ha
    ho acct hfs hre
  constructor
  · intro hused
    rw [hmain, if_pos hused]
  · intro hunused
    refine ⟨{ pda with data := (acct.mark_used s).2.store pda.data }, ?_, ?_⟩
    · rw [hmain, if_neg (by simp [hunused])]
    · have hlen : acct.bitmap.length = BITMAP_BYTES :=
        from_slice_bitmap_length _ _ hfs
      have hlen2 : (acct.mark_used s).2.bitmap.length = BITMAP_BYTES := by
        rw [mark_used_length]
        exact hlen
      have hfs2 : BitmapAccount.from_slice ((acct.mark_used s).2.store pda.data) =
          some (acct.mark_used s).2 :=
        from_slice_store pda.data acct _ hfs hlen2
      have hmain2 := process_mark_used_owned ctx pid payer authority
        { pda with data := (acct.mark_used s).2.store pda.data } sys ns s hp ha
        ho (acct.mark_used s).2 hfs2 (by rw [mark_used_bump]; exact hre)
      rw [hmain2, if_pos (mark_used_sets acct hlen s)]

theorem replay_protection_witness :
    (⟨0, List.replicate 128 0⟩ : BitmapAccount).is_used 42 = false ∧
    ∃ pda1,
      process_mark_used ⟨fun _ _ => ([3], 255), fun _ _ => some [3], 100⟩ [7]
          [AccountView.mk [1] [0] 10 [] true, AccountView.mk [2] [0] 0 [] true,
           AccountView.mk [3] [7] 5 (List.replicate 129 0) false,
           AccountView.mk [4] [0] 0 [] false] [] 42 = .ok (pda1, []) ∧
      process_mark_used ⟨fun _ _ => ([3], 255), fun _ _ => some [3], 100⟩ [7]
          [AccountView.mk [1] [0] 10 [] true, AccountView.mk [2] [0] 0 [] true,
           pda1, AccountView.mk [4] [0] 0 [] false] [] 42 =
        .error .accountAlreadyInitialized :=
  ⟨by decide,
   (replay_protection ⟨fun _ _ => ([3], 255), fun _ _ => some [3], 100⟩ [7]
     (AccountView.mk [1] [0] 10 [] true) (AccountView.mk [2] [0] 0 [] true)
     (AccountView.mk [3] [7] 5 (List.replicate 129 0) false)
     (AccountView.mk [4] [0] 0 [] false) [] 42 rfl rfl rfl
     ⟨0, List.replicate 128 0⟩ (by decide) (by decide)).2 (by decide)⟩

/-- Inversion: a successful `CreateBitmap` on a program-owned record returns
the record unchanged. -/
theorem process_create_bitmap_ok_owned (ctx : PdaCtx) (pid : List Nat)
    (payer authority pda sys : AccountView) (ns : List Nat) (s : Nat)
    (pda1 : AccountView) (cpis : List Cpi) (ho : pda.owner = pid)
    (hok : process_create_bitmap ctx pid [payer, authority, pda, sys] ns s =
      .ok (pda1, cpis)) :
    pda1 = pda := by
  simp only [process_create_bitmap, init_bitmap_pda] at hok
  split at hok
  · exact absurd hok (by simp)
  · split at hok
    · exact absurd hok (by simp)
    · rename_i heq
      split at heq
      · rename_i hno
        exact absurd ho hno
      · split at heq
        · exact absurd heq (by simp)
        · split at heq
          · exact absurd heq (by simp)
          · split at heq
            · exact absurd heq (by simp)
            · simp only [Except.ok.injEq, Prod.mk.injEq] at heq hok
              rw [← hok.1, ← heq.2.1]

/-- When the record is already owned by the program, `CreateBitmap` leaves it
untouched (success is a no-op, failure is discarded). -/
theorem run_create_bitmap_owned (ctx : PdaCtx) (pid : List Nat)
    (payer authority pda sys : AccountView) (ns : List Nat) (s : Nat)
    (ho : pda.owner = pid) :
    run_create_bitmap ctx pid payer authority pda sys ns s = pda := by
  unfold run_create_bitmap
  cases hproc : process_create_bitmap ctx pid [payer, authority, pda, sys] ns s with
  | error e => rfl
  | ok v =>
    obtain ⟨pda1, cpis⟩ := v
    exact process_create_bitmap_ok_owned ctx pid payer authority pda sys ns s
      pda1 cpis ho hproc

/-- Any successful `MarkUsed` on a program-owned record leaves the record's
data equal to the stored result of `mark_used` on the previously stored
account. -/
theorem process_mark_used_ok_data (ctx : PdaCtx) (pid : List Nat)
    (payer authority pda sys : AccountView) (ns : List Nat) (s : Nat)
    (pda1 : AccountView) (cpis : List Cpi) (ho : pda.owner = pid)
    (hok : process_mark_used ctx pid [payer, authority, pda, sys] ns s =
      .ok (pda1, cpis)) :
    ∃ acct, BitmapAccount.from_slice pda.data = some acct ∧
      pda1.data = ((acct.mark_used s).2).store pda.data := by
  simp only [process_mark_used, init_bitmap_pda] at hok
  split at hok
  · exact absurd hok (by simp)
  · split at hok
    · exact absurd hok (by simp)
    · split at hok
      · exact absurd hok (by simp)
      · rename_i heq
        split at heq
        · rename_i hno
          exact absurd ho hno
        · split at heq
          · exact absurd heq (by simp)
          · rename_i acct hfs
            split at heq
            · exact absurd heq (by simp)
            · split at heq
              · exact absurd heq (by simp)
              · simp only [Except.ok.injEq, Prod.mk.injEq] at heq
                obtain ⟨hb, hpda, hcpis⟩ := heq
                rw [← hpda] at hok
                simp only [hfs] at hok
                split at hok
                · exact absurd hok (by simp)
                · simp only [Except.ok.injEq, Prod.mk.injEq] at hok
                  exact ⟨acct, hfs, by rw [← hok.1]⟩

/-- C8: monotonicity — on a program-owned record, both operations (whether
they succeed or fail) preserve every already-set bit; consumption is
irreversible. -/
theorem consumption_monotone (ctx : PdaCtx) (pid : List Nat)
    (payer authority pda sys : AccountView) (ns : List Nat) (s : Nat)
    (ho : pda.owner = pid) :
    (∀ t, record_used pda.data t = true →
      record_used (run_mark_used ctx pid payer authority pda sys ns s).data t = true)
    ∧ (∀ t, record_used pda.data t = true →
      record_used (run_create_bitmap ctx pid payer authority pda sys ns s).data t =
        true) := by
  constructor
  · intro t ht
    unfold run_mark_used
    cases hproc : process_mark_used ctx pid [payer, authority, pda, sys] ns s with
    | error e => exact ht
    | ok v =>
      obtain ⟨pda1, cpis⟩ := v
      obtain ⟨acct, hfs, hdata⟩ :=
        process_mark_used_ok_data ctx pid payer authority pda sys ns s pda1 cpis
          ho hproc
      have hlen : acct.bitmap.length = BITMAP_BYTES :=
        from_slice_bitmap_length _ _ hfs
      have hlen2 : (acct.mark_used s).2.bitmap.length = BITMAP_BYTES := by
        rw [mark_used_length]
        exact hlen
      have hfs2 := from_slice_store pda.data acct _ hfs hlen2
      simp only [record_used, hdata, hfs2]
      apply mark_used_monotone acct hlen s t
      simpa [record_used, hfs] using ht
  · intro t ht
    rw [run_create_bitmap_owned ctx pid payer authority pda sys ns s ho]
    exact ht

theorem consumption_monotone_witness :
    record_used (0 :: 1 :: List.replicate 127 0) 0 = true ∧
    record_used (run_mark_used ⟨fun _ _ => ([3], 255), fun _ _ => some [3], 100⟩
      [7] (AccountView.mk [1] [0] 10 [] true) (AccountView.mk [2] [0] 0 [] true)
      (AccountView.mk [3] [7] 5 (0 :: 1 :: List.replicate 127 0) false)
      (AccountView.mk [4] [0] 0 [] false) [] 9).data 0 = true :=
  ⟨by decide,
   (consumption_monotone ⟨fun _ _ => ([3], 255), fun _ _ => some [3], 100⟩ [7]
     (AccountView.mk [1] [0] 10 [] true) (AccountView.mk [2] [0] 0 [] true)
     (AccountView.mk [3] [7] 5 (0 :: 1 :: List.replicate 127 0) false)
     (AccountView.mk [4] [0] 0 [] false) [] 9 rfl).1 0 (by decide)⟩

end NoReplay
